import Mathlib

set_option maxRecDepth 100000

/-!
Shallow embedding of `src/main.py` (tf_dependency_fetcher): a script that
scans a TensorFlow source tree for `workspace.bzl` files, extracts quoted
dependency URLs, filters mirror hosts, and downloads each URL into a flat
cache directory, using `@<md5hex>.txt` marker files as an "already fetched"
ledger.

Conventions of the embedding:
- filenames and URLs are `String`s; file contents are byte lists (`List Nat`);
- the flat cache directory is an association list `List (String × List Nat)`
  from filename to content (the directory is flat: the program never creates
  subdirectories there);
- fallible Python operations return `Except PyErr _` or pair their result
  with an `Option PyErr`; machine words are `Nat` reduced mod 2 ^ 32;
- the HTTP world (network answers, filesystem write failures) is an explicit
  oracle `World` threaded through the batch loop.
-/

/-- Python exception classes that the script can raise or catch. -/
inductive PyErr where
  | typeError
  | nameError (missing : String)
  | keyError (msg : String)
  | indexError
  | ioError
  | httpStatusError (status : Nat) (url : String)
  | transportError
deriving DecidableEq, Repr

/-- Reduce a natural number to a 32-bit machine word, as CPython's digest
arithmetic does. -/
def w32 (n : Nat) : Nat := n % 4294967296

/-- 32-bit addition. -/
def addw (a b : Nat) : Nat := (a + b) % 4294967296

/-- Bitwise complement on 32-bit words. -/
def notw (a : Nat) : Nat := a ^^^ 4294967295

/-- Left rotation of a 32-bit word by `s` places. -/
def rotl (x s : Nat) : Nat := ((x <<< s) ||| (x >>> (32 - s))) % 4294967296

/-- UTF-8 encoding of a single character as a byte list; this is what
Python's `str.encode()` does per code point. -/
def utf8EncodeCharNat (c : Char) : List Nat :=
  let n := c.toNat
  if n < 128 then [n]
  else if n < 2048 then [192 + n / 64, 128 + n % 64]
  else if n < 65536 then [224 + n / 4096, 128 + n / 64 % 64, 128 + n % 64]
  else [240 + n / 262144, 128 + n / 4096 % 64, 128 + n / 64 % 64, 128 + n % 64]

/-- UTF-8 encoding of a string (`url.encode()` in the script). -/
def utf8Encode (s : String) : List Nat := s.data.flatMap utf8EncodeCharNat

/-- The 64 MD5 sine-derived round constants (RFC 1321 table T). -/
def md5K : List Nat :=
  [0xd76aa478, 0xe8c7b756, 0x242070db, 0xc1bdceee,
   0xf57c0faf, 0x4787c62a, 0xa8304613, 0xfd469501,
   0x698098d8, 0x8b44f7af, 0xffff5bb1, 0x895cd7be,
   0x6b901122, 0xfd987193, 0xa679438e, 0x49b40821,
   0xf61e2562, 0xc040b340, 0x265e5a51, 0xe9b6c7aa,
   0xd62f105d, 0x02441453, 0xd8a1e681, 0xe7d3fbc8,
   0x21e1cde6, 0xc33707d6, 0xf4d50d87, 0x455a14ed,
   0xa9e3e905, 0xfcefa3f8, 0x676f02d9, 0x8d2a4c8a,
   0xfffa3942, 0x8771f681, 0x6d9d6122, 0xfde5380c,
   0xa4beea44, 0x4bdecfa9, 0xf6bb4b60, 0xbebfbc70,
   0x289b7ec6, 0xeaa127fa, 0xd4ef3085, 0x04881d05,
   0xd9d4d039, 0xe6db99e5, 0x1fa27cf8, 0xc4ac5665,
   0xf4292244, 0x432aff97, 0xab9423a7, 0xfc93a039,
   0x655b59c3, 0x8f0ccc92, 0xffeff47d, 0x85845dd1,
   0x6fa87e4f, 0xfe2ce6e0, 0xa3014314, 0x4e0811a1,
   0xf7537e82, 0xbd3af235, 0x2ad7d2bb, 0xeb86d391]

/-- The MD5 per-round left-rotation amounts (RFC 1321). -/
def md5S : List Nat :=
  [7, 12, 17, 22, 7, 12, 17, 22, 7, 12, 17, 22, 7, 12, 17, 22,
   5, 9, 14, 20, 5, 9, 14, 20, 5, 9, 14, 20, 5, 9, 14, 20,
   4, 11, 16, 23, 4, 11, 16, 23, 4, 11, 16, 23, 4, 11, 16, 23,
   6, 10, 15, 21, 6, 10, 15, 21, 6, 10, 15, 21, 6, 10, 15, 21]

/-- Assemble a 32-bit word from four little-endian bytes. -/
def leWord (b0 b1 b2 b3 : Nat) : Nat := b0 + 256 * b1 + 65536 * b2 + 16777216 * b3

/-- Split a 64-byte MD5 block into sixteen little-endian 32-bit words. -/
def md5Words : List Nat → List Nat
  | b0 :: b1 :: b2 :: b3 :: rest => leWord b0 b1 b2 b3 :: md5Words rest
  | _ => []

/-- One of the 64 MD5 rounds, acting on the state `(a, b, c, d)`; `M` maps a
word index to the message word. -/
def md5Round (M : Nat → Nat) (st : Nat × Nat × Nat × Nat) (i : Nat) :
    Nat × Nat × Nat × Nat :=
  let (a, b, c, d) := st
  let fg : Nat × Nat :=
    if i < 16 then ((b &&& c) ||| (notw b &&& d), i)
    else if i < 32 then ((d &&& b) ||| (notw d &&& c), (5 * i + 1) % 16)
    else if i < 48 then (b ^^^ c ^^^ d, (3 * i + 5) % 16)
    else (c ^^^ (b ||| notw d), (7 * i) % 16)
  let f := (fg.1 + a + md5K.getD i 0 + M fg.2) % 4294967296
  (d, addw b (rotl f (md5S.getD i 0)), b, c)

/-- Process one padded 64-byte block, updating the MD5 state. -/
def md5Block (st : Nat × Nat × Nat × Nat) (block : List Nat) :
    Nat × Nat × Nat × Nat :=
  let ws := md5Words block
  let M : Nat → Nat := fun g => ws.getD g 0
  let r := (List.range 64).foldl (md5Round M) st
  (addw st.1 r.1, addw st.2.1 r.2.1, addw st.2.2.1 r.2.2.1, addw st.2.2.2 r.2.2.2)

/-- Eight little-endian bytes of a 64-bit length field. -/
def leBytes8 (n : Nat) : List Nat :=
  [n % 256, n / 256 % 256, n / 65536 % 256, n / 16777216 % 256,
   n / 4294967296 % 256, n / 1099511627776 % 256,
   n / 281474976710656 % 256, n / 72057594037927936 % 256]

/-- Four little-endian bytes of a 32-bit word. -/
def leBytes4 (n : Nat) : List Nat :=
  [n % 256, n / 256 % 256, n / 65536 % 256, n / 16777216 % 256]

/-- MD5 padding: append `0x80`, zero-fill to 56 mod 64, then the bit length
as eight little-endian bytes. -/
def md5Pad (msg : List Nat) : List Nat :=
  let z := (119 - msg.length % 64) % 64
  msg ++ (128 :: List.replicate z 0) ++ leBytes8 (8 * msg.length)

/-- Cut a padded message into `n` blocks of 64 bytes. -/
def md5Chunks : Nat → List Nat → List (List Nat)
  | 0, _ => []
  | n + 1, l => l.take 64 :: md5Chunks n (l.drop 64)

/-- The 16-byte MD5 digest of a byte list. -/
def md5Bytes (msg : List Nat) : List Nat :=
  let padded := md5Pad msg
  let blocks := md5Chunks (padded.length / 64) padded
  let st := blocks.foldl md5Block (0x67452301, 0xefcdab89, 0x98badcfe, 0x10325476)
  leBytes4 st.1 ++ leBytes4 st.2.1 ++ leBytes4 st.2.2.1 ++ leBytes4 st.2.2.2

/-- Lower-case hexadecimal digit for a nibble. -/
def hexDigit (n : Nat) : Char :=
  if n < 10 then Char.ofNat (48 + n) else Char.ofNat (87 + n)

/-- Two lower-case hex characters for a byte. -/
def hexByte (b : Nat) : List Char := [hexDigit (b / 16 % 16), hexDigit (b % 16)]

/-- `hashlib.md5(url.encode()).hexdigest()`: the 32-character lower-case hex
MD5 digest of the UTF-8 bytes of a string. -/
def md5hex (s : String) : String :=
  String.mk ((md5Bytes (utf8Encode s)).flatMap hexByte)

/-! ## Cache ledger (`_ckpt_filename`, `_is_cached`)

The cache directory is modelled as an association list from filename to byte
content. `Path.glob` over the flat directory is modelled as filtering the
stored filenames against the literal glob pattern. -/

/-- A flat directory: filenames paired with their byte contents. -/
abbrev CacheDir := List (String × List Nat)

/-- The filenames present in a directory. -/
def fileNames (d : CacheDir) : List String := d.map (fun e => e.1)

/-- Whether a filename exists in the directory. -/
def hasFile (d : CacheDir) (name : String) : Bool := (fileNames d).contains name

/-- Write a file: `open(path, "wb")` followed by `f.write` truncates an
existing file of that name or creates a fresh one. -/
def writeFile (d : CacheDir) (name : String) (content : List Nat) : CacheDir :=
  if hasFile d name then d.map (fun e => if e.1 = name then (name, content) else e)
  else d ++ [(name, content)]

/-- `Path.touch`: create an empty file if absent; an existing file keeps its
content (only metadata changes). -/
def touchFile (d : CacheDir) (name : String) : CacheDir :=
  if hasFile d name then d else d ++ [(name, [])]

/-- `_ckpt_filename(url)`: the marker name `@<md5 hexdigest of url>.txt`. -/
def ckptFilename (url : String) : String := "@" ++ md5hex url ++ ".txt"

/-- Whether a filename matches the glob pattern `@*.txt` used by
`download_dir.glob` in `_is_cached`: a literal `@`, any run of characters,
then a literal `.txt`. -/
def globAtTxt (name : String) : Bool :=
  ("@".data).isPrefixOf name.data && (".txt".data).isSuffixOf name.data

/-- `_is_cached(download_dir, url)`: list the names of the direct entries of
the cache directory matching `@*.txt` and test whether the marker name for
`url` is among them. -/
def isCached (d : CacheDir) (url : String) : Bool :=
  ((fileNames d).filter globAtTxt).contains (ckptFilename url)

/-! ## HTTP responses and `_get_response_filename` -/

/-- One hop of the redirect chain kept in `response.history`; the first
entry's `url` is the originally requested URL. -/
structure RedirectHop where
  url : String
deriving DecidableEq, Repr

/-- A `requests` response: final status code, final (post-redirect) URL, the
redirect history, the response headers, and the body bytes. -/
structure Response where
  statusCode : Nat
  url : String
  history : List RedirectHop
  headers : List (String × String)
  content : List Nat
deriving DecidableEq, Repr

/-- `response.ok` in `requests`: true iff the status code is below 400. -/
def respOk (r : Response) : Bool := r.statusCode < 400

/-- The expression `response.history[0].url if response.history else
response.url` from `_cache_dependency`. -/
def requestedUrl (r : Response) : String :=
  match r.history with
  | [] => r.url
  | h :: _ => h.url

/-- ASCII lower-casing of a character (header names are ASCII). -/
def lowerChar (c : Char) : Char :=
  if 65 ≤ c.toNat && c.toNat ≤ 90 then Char.ofNat (c.toNat + 32) else c

/-- Lower-casing of header names, as the case-insensitive header dictionary
of `requests` compares them. -/
def lowerName (s : String) : String := String.mk (s.data.map lowerChar)

/-- Case-insensitive header membership (`key in response.headers` on a
`CaseInsensitiveDict`). -/
def headerMem (hs : List (String × String)) (key : String) : Bool :=
  hs.any (fun p => lowerName p.1 = lowerName key)

/-- Case-insensitive header lookup (`response.headers[key]`). -/
def headerGet (hs : List (String × String)) (key : String) : String :=
  ((hs.find? (fun p => lowerName p.1 = lowerName key)).map (fun p => p.2)).getD ""

/-- First capture of `re.findall('filename=(.+)', content)`: scan for the
literal `filename=`, capture greedily to the end of the line; an empty
remainder fails the `.+` and the scan resumes one character later. -/
def firstFilenameCapture : List Char → Option (List Char)
  | [] => none
  | c :: rest =>
    if ("filename=".data).isPrefixOf (c :: rest) then
      let cap := (List.drop 8 rest).takeWhile (fun ch => ch ≠ '\n')
      if cap.isEmpty then firstFilenameCapture rest else some cap
    else firstFilenameCapture rest

/-- Strip the characters selected by `p` from both ends of a string, as
Python's `str.strip` variants do. -/
def pyStrip (p : Char → Bool) (s : String) : String :=
  String.mk (((s.data.dropWhile p).reverse.dropWhile p).reverse)

/-- Split a character list on `/`, keeping empty segments, as
`str.split` over a single-character separator does. -/
def splitSlash (cs : List Char) : List (List Char) :=
  cs.foldr
    (fun c acc =>
      match acc with
      | seg :: rest => if c = '/' then [] :: seg :: rest else (c :: seg) :: rest
      | [] => [[c]])
    [[]]

/-- `PurePath.name` on a URL string: the last nonempty slash-separated
component (pathlib drops trailing slashes and collapses repeated
separators; URLs do not end in `.` or `..` components). -/
def pathName (s : String) : String :=
  String.mk ((((splitSlash s.data).filter (fun seg => seg ≠ [])).getLast?).getD [])

/-- `_get_response_filename(response)`: inside a `try`, look up the
`Content-Disposition` header (the dictionary is case-insensitive, so the
lower-case `elif` arm can never fire on a dictionary miss), take the first
`filename=` capture (`[0]` raises `IndexError` when there is none); the
result of the `strip` chain on line 99 is discarded because it is never
assigned. The bare `except` returns `Path(response.url).name`. -/
def getResponseFilename (r : Response) : String :=
  let attempt : Except PyErr String := do
    let content ←
      if headerMem r.headers "Content-Disposition" then
        pure (headerGet r.headers "Content-Disposition")
      else if headerMem r.headers "content-disposition" then
        pure (headerGet r.headers "content-disposition")
      else
        Except.error (PyErr.keyError "No field Content-Disposition")
    let fname ←
      match firstFilenameCapture content.data with
      | some cap => pure (String.mk cap)
      | none => Except.error PyErr.indexError
    let _discarded :=
      pyStrip (fun c => c = '"')
        (pyStrip (fun c => c = ',') (pyStrip Char.isWhitespace fname))
    pure fname
  match attempt with
  | Except.ok fname => fname
  | Except.error _ => pathName r.url

/-! ## Downloader (`_cache_dependency`) and batch loop (`_download_urls`)

The outside world is an oracle: `net` answers `requests.get` (`none` models a
transport-level exception), `openFails` marks filenames whose `open`/`touch`
raises before creating anything, `writeFails` marks filenames whose `open`
succeeds (creating/truncating the file) but whose `write` then raises. -/

/-- The effect oracle for one run. -/
structure World where
  net : String → Option Response
  openFails : String → Bool
  writeFails : String → Bool

/-- `_cache_dependency(download_dir, response)`: write the payload under the
response-derived filename, then touch the marker for the originally
requested URL. Returns the directory as mutated so far together with the
exception, if one was raised. The marker touch comes strictly after a
completed payload write. -/
def cacheDependency (w : World) (d : CacheDir) (r : Response) :
    CacheDir × Option PyErr :=
  let p := getResponseFilename r
  if w.openFails p then (d, some PyErr.ioError)
  else if w.writeFails p then (writeFile d p [], some PyErr.ioError)
  else
    let d1 := writeFile d p r.content
    let m := ckptFilename (requestedUrl r)
    if w.openFails m then (d1, some PyErr.ioError)
    else (touchFile d1 m, none)

/-- The loop state of `_download_urls`: the cache directory plus the three
counters, the failed-URL list, and an instrumentation counter of how many
`requests.get` calls were issued. -/
structure DLState where
  dir : CacheDir
  numSkipped : Nat
  numSuccess : Nat
  failedDownloads : List String
  netGets : Nat

/-- One iteration of the `for url in tqdm(urls_to_download)` loop: a fresh
`_is_cached` check against the current directory, then `requests.get`; a
raised exception anywhere in the `try` block (transport error, the non-ok
`raise`, or a filesystem write error inside `_cache_dependency`) is caught,
printed, and the URL appended to `failed_downloads`. -/
def downloadStep (w : World) (st : DLState) (url : String) : DLState :=
  if isCached st.dir url then
    { st with numSkipped := st.numSkipped + 1 }
  else
    match w.net url with
    | none =>
      { st with netGets := st.netGets + 1,
                failedDownloads := st.failedDownloads ++ [url] }
    | some r =>
      if respOk r then
        match cacheDependency w st.dir r with
        | (d1, none) =>
          { st with dir := d1, netGets := st.netGets + 1,
                    numSuccess := st.numSuccess + 1 }
        | (d1, some _) =>
          { st with dir := d1, netGets := st.netGets + 1,
                    failedDownloads := st.failedDownloads ++ [url] }
      else
        { st with netGets := st.netGets + 1,
                  failedDownloads := st.failedDownloads ++ [url] }

/-- The initial loop state over a given cache directory. -/
def initState (d : CacheDir) : DLState :=
  { dir := d, numSkipped := 0, numSuccess := 0, failedDownloads := [], netGets := 0 }

/-- `_download_urls(download_dir, urls_to_download)`: fold the loop body over
the URL list; the trailing prints only report the accumulated state. -/
def downloadUrls (w : World) (d : CacheDir) (urls : List String) : DLState :=
  urls.foldl (downloadStep w) (initState d)

/-! ## URL extraction (`DEPENDENCY_URL_PATTERN`, `_extract_dependency_urls`)

`re.findall('"(https://.*)",?', contents)` scans for the leftmost match: a
double quote immediately followed by `https://`, then a greedy `.*` (which
cannot cross a newline), a closing double quote — greediness picks the last
quote on the line — and an optional comma. Scanning resumes after each
match; a failed attempt advances one character. The scanner below is written
with explicit fuel so that it stays structurally recursive; the fuel is set
to the text length, which bounds the number of scan positions. -/

/-- Split a line at its last double quote: `some (before, after)` with
`line = before ++ quote :: after` and no quote in `after`; `none` when the
line has no double quote. -/
def splitLastQuote : List Char → Option (List Char × List Char)
  | [] => none
  | c :: rest =>
    match splitLastQuote rest with
    | some (b, a) => some (c :: b, a)
    | none => if c = '"' then some ([], rest) else none

/-- Consume the optional trailing comma of the pattern (`,?` is greedy). -/
def dropComma : List Char → List Char
  | ',' :: t => t
  | t => t

/-- The fuelled scanner for `re.findall` with the dependency-URL pattern,
returning the capture groups in match order. -/
def findallDepUrls : Nat → List Char → List (List Char)
  | 0, _ => []
  | _ + 1, [] => []
  | fuel + 1, c :: rest =>
    if c = '"' && ("https://".data).isPrefixOf rest then
      let tail := rest.drop 8
      let line := tail.takeWhile (fun ch => ch ≠ '\n')
      match splitLastQuote line with
      | some (before, _) =>
        let cap := "https://".data ++ before
        let afterQuote := tail.drop (before.length + 1)
        cap :: findallDepUrls fuel (dropComma afterQuote)
      | none => findallDepUrls fuel rest
    else
      findallDepUrls fuel rest

/-- `re.findall(DEPENDENCY_URL_PATTERN, contents)` as a string function. -/
def reFindallDepUrls (contents : String) : List String :=
  (findallDepUrls contents.data.length contents.data).map String.mk

/-- Substring containment, for the `in` tests of `_is_mirror_url`. -/
def strContains (hay pat : String) : Bool :=
  hay.data.tails.any (fun t => pat.data.isPrefixOf t)

/-- `_is_mirror_url(url)`: true iff the URL contains one of the two known
mirror-domain substrings. -/
def isMirrorUrl (url : String) : Bool :=
  strContains url "mirror.bazel.build" || strContains url "mirror.tensorflow.org"

/-- `_extract_dependency_urls(contents, remove_mirrors)`: all pattern
captures, with mirror URLs filtered out when `remove_mirrors` is set. -/
def extractDependencyUrls (contents : String) (removeMirrors : Bool) : List String :=
  let urls := reFindallDepUrls contents
  if removeMirrors then urls.filter (fun link => !isMirrorUrl link) else urls

/-- Modelled from the spec words of the extraction contract, for comparison
with the code's extractor: the ordered sequence of substrings that appear in
the text as double-quoted strings beginning with `https://` (each string
ending at the next double quote), duplicates preserved. -/
def specQuotedHttpsStrings : Nat → List Char → List (List Char)
  | 0, _ => []
  | _ + 1, [] => []
  | fuel + 1, c :: rest =>
    if c = '"' && ("https://".data).isPrefixOf rest then
      let tail := rest.drop 8
      let body := tail.takeWhile (fun ch => ch ≠ '"')
      if body.length < tail.length then
        ("https://".data ++ body) :: specQuotedHttpsStrings fuel (tail.drop (body.length + 1))
      else
        specQuotedHttpsStrings fuel rest
    else
      specQuotedHttpsStrings fuel rest

/-- The spec-worded extraction contract as a string function. -/
def specExtractQuotedHttps (contents : String) : List String :=
  (specQuotedHttpsStrings contents.data.length contents.data).map String.mk

/-! ## Repository object, version parsing, discovery, and `main`

`TensorflowRepo.__init__` stores the directory and immediately calls
`get_tf_version`. That method evaluates `self._tf_dir.glob("setup.py")`,
which yields a generator object, and passes the generator itself to `open`,
which raises `TypeError` (it accepts only path-like arguments). The lines
after it are unreachable; had they run, the f-string in
`re.findall(rf"_VERSION = ({SEMVER_PATTERN})")` would raise `NameError`
because `SEMVER_PATTERN` is a class attribute referenced as a bare global
name, and `re.findall` is also missing its string argument. -/

/-- A source tree: file paths (slash-separated, relative to the root) paired
with their text contents. -/
abbrev SourceTree := List (String × String)

/-- A Python value that can be handed to `open`: a path-like value or the
generator object produced by `Path.glob`. -/
inductive PyObj where
  | pathLike (s : String)
  | generator (items : List String)

/-- `open(x, "rt")` followed by `read()`: path-like arguments resolve against
the source tree (`FileNotFoundError` is modelled as `ioError`); any other
object raises `TypeError` immediately. -/
def pyOpenRead (tree : SourceTree) (x : PyObj) : Except PyErr String :=
  match x with
  | PyObj.pathLike s =>
    match tree.find? (fun e => e.1 = s) with
    | some e => Except.ok e.2
    | none => Except.error PyErr.ioError
  | PyObj.generator _ => Except.error PyErr.typeError

/-- `tf_dir.glob("setup.py")`: a generator over the direct entries named
`setup.py`; the call itself evaluates lazily and cannot raise. -/
def globSetupPy (tree : SourceTree) : PyObj :=
  PyObj.generator ((tree.map (fun e => e.1)).filter (fun p => p = "setup.py"))

/-- `get_tf_version(self)`: the `open` call receives the generator and
raises `TypeError`; the remaining lines (the f-string `NameError` on
`SEMVER_PATTERN` and the arity-error `findall`) are kept after it but are
unreachable. -/
def getTfVersion (tree : SourceTree) : Except PyErr String := do
  let setupPyFile := globSetupPy tree
  let _contents ← pyOpenRead tree setupPyFile
  let _pattern ← (Except.error (PyErr.nameError "SEMVER_PATTERN") : Except PyErr String)
  let tfVersion ← (Except.error PyErr.typeError : Except PyErr String)
  return tfVersion

/-- The constructed repository object: the stored directory and the version
string computed in `__init__`. -/
structure TensorflowRepo where
  tfDir : SourceTree
  tfVersion : String

/-- `TensorflowRepo.__init__`: store the directory, then compute
`self._tf_version = self.get_tf_version()`. -/
def tensorflowRepoInit (tree : SourceTree) : Except PyErr TensorflowRepo := do
  let v ← getTfVersion tree
  return { tfDir := tree, tfVersion := v }

/-- `_get_files_listing_deps`: every file in the subtree whose name matches
the recursive glob `**/workspace.bzl`, i.e. whose final path segment is
literally `workspace.bzl`. -/
def getFilesListingDeps (tree : SourceTree) : List (String × String) :=
  tree.filter (fun e => pathName e.1 = "workspace.bzl")

/-- `_get_dependency_urls`: concatenate the extraction results of every
discovered manifest file, in discovery order. -/
def getDependencyUrls (tree : SourceTree) : List String :=
  (getFilesListingDeps tree).flatMap (fun e => extractDependencyUrls e.2 true)

/-- `download_build_dependencies(download_dir)`: discover the URLs and run
the batch loop. -/
def downloadBuildDependencies (repo : TensorflowRepo) (w : World) (d : CacheDir) :
    DLState :=
  downloadUrls w d (getDependencyUrls repo.tfDir)

/-- `main(args)`: create the download directory, construct the
`TensorflowRepo` (which raises inside `__init__`), and only on success run
`download_build_dependencies`. -/
def mainRun (tree : SourceTree) (w : World) (d : CacheDir) : Except PyErr DLState := do
  let repo ← tensorflowRepoInit tree
  return downloadBuildDependencies repo w d

/-! ## Helper lemmas shared by the claim theorems -/

/-- The character data of a marker filename. -/
theorem ckptFilename_data (u : String) :
    (ckptFilename u).data = '@' :: ((md5hex u).data ++ ['.', 't', 'x', 't']) := by
  show ("@" ++ (md5hex u ++ ".txt")).data = _
  rw [String.data_append, String.data_append]
  rfl

/-- Every marker filename matches the glob pattern `@*.txt`. -/
theorem globAtTxt_ckptFilename (u : String) : globAtTxt (ckptFilename u) = true := by
  unfold globAtTxt
  rw [ckptFilename_data]
  apply Bool.and_eq_true_iff.mpr
  constructor
  · simp [List.isPrefixOf]
  · simp only [List.isSuffixOf, List.reverse_cons, List.reverse_append]
    simp [List.isPrefixOf_iff_prefix]

/-- `_is_cached` answers true exactly when a file named exactly like the
marker for the URL exists directly in the cache directory. -/
theorem isCached_iff_mem (d : CacheDir) (u : String) :
    isCached d u = true ↔ ckptFilename u ∈ fileNames d := by
  unfold isCached
  constructor
  · intro h
    have hmem : ckptFilename u ∈ (fileNames d).filter globAtTxt := by simpa using h
    exact (List.mem_filter.mp hmem).1
  · intro h
    have hmem : ckptFilename u ∈ (fileNames d).filter globAtTxt :=
      List.mem_filter.mpr ⟨h, globAtTxt_ckptFilename u⟩
    simpa using hmem

/-- The filenames after a `writeFile`. -/
theorem fileNames_writeFile (d : CacheDir) (n : String) (c : List Nat) :
    fileNames (writeFile d n c) =
      if hasFile d n then fileNames d else fileNames d ++ [n] := by
  unfold writeFile
  split
  · next h =>
    simp only [if_pos h, fileNames, List.map_map]
    apply List.map_congr_left
    intro e _
    by_cases he : e.1 = n
    · simp [he]
    · simp [he]
  · next h =>
    simp [if_neg h, fileNames]

/-- The filenames after a `touchFile`. -/
theorem fileNames_touchFile (d : CacheDir) (n : String) :
    fileNames (touchFile d n) =
      if hasFile d n then fileNames d else fileNames d ++ [n] := by
  unfold touchFile
  split
  · next h => simp [if_pos h]
  · next h => simp [if_neg h, fileNames]

/-- `hasFile` is membership of the name list. -/
theorem hasFile_iff_mem (d : CacheDir) (n : String) :
    hasFile d n = true ↔ n ∈ fileNames d := by
  unfold hasFile
  simp

/-- A written name is present afterwards. -/
theorem mem_fileNames_writeFile_self (d : CacheDir) (n : String) (c : List Nat) :
    n ∈ fileNames (writeFile d n c) := by
  rw [fileNames_writeFile]
  split
  · next h => exact (hasFile_iff_mem d n).mp h
  · next h => simp

/-- A touched name is present afterwards. -/
theorem mem_fileNames_touchFile_self (d : CacheDir) (n : String) :
    n ∈ fileNames (touchFile d n) := by
  rw [fileNames_touchFile]
  split
  · next h => exact (hasFile_iff_mem d n).mp h
  · next h => simp

/-- Membership after `writeFile` comes from the old directory or is the
written name. -/
theorem mem_fileNames_writeFile (d : CacheDir) (n m : String) (c : List Nat)
    (h : m ∈ fileNames (writeFile d n c)) : m ∈ fileNames d ∨ m = n := by
  rw [fileNames_writeFile] at h
  revert h
  split
  · intro h
    exact Or.inl h
  · intro h
    rcases List.mem_append.mp h with h1 | h1
    · exact Or.inl h1
    · simp at h1
      exact Or.inr h1

/-- Membership after `touchFile` comes from the old directory or is the
touched name. -/
theorem mem_fileNames_touchFile (d : CacheDir) (n m : String)
    (h : m ∈ fileNames (touchFile d n)) : m ∈ fileNames d ∨ m = n := by
  rw [fileNames_touchFile] at h
  revert h
  split
  · intro h
    exact Or.inl h
  · intro h
    rcases List.mem_append.mp h with h1 | h1
    · exact Or.inl h1
    · simp at h1
      exact Or.inr h1

/-- A successful `_cache_dependency` leaves the marker of the originally
requested URL in the directory. -/
theorem cacheDependency_marker_mem (w : World) (d : CacheDir) (r : Response)
    (h : (cacheDependency w d r).2 = none) :
    ckptFilename (requestedUrl r) ∈ fileNames (cacheDependency w d r).1 := by
  simp only [cacheDependency] at h ⊢
  split at h
  · simp at h
  · split at h
    · simp at h
    · revert h
      split
      · intro h
        simp at h
      · intro _
        exact mem_fileNames_touchFile_self _ _

/-- Each loop iteration settles exactly one outcome: skip, success, or
failure. -/
theorem downloadStep_count (w : World) (st : DLState) (url : String) :
    (downloadStep w st url).numSkipped + (downloadStep w st url).numSuccess
      + (downloadStep w st url).failedDownloads.length
    = st.numSkipped + st.numSuccess + st.failedDownloads.length + 1 := by
  by_cases hc : isCached st.dir url
  · simp [downloadStep, hc]
    omega
  · cases hn : w.net url with
    | none =>
      simp [downloadStep, hc, hn]
      omega
    | some r =>
      by_cases hok : respOk r
      · rcases hcd : cacheDependency w st.dir r with ⟨d1, oe⟩
        cases oe with
        | none =>
          simp [downloadStep, hc, hn, hok, hcd]
          omega
        | some e =>
          simp [downloadStep, hc, hn, hok, hcd]
          omega
      · simp [downloadStep, hc, hn, hok]
        omega

/-- Folding the loop over a URL list adds exactly one outcome per URL. -/
theorem foldl_downloadStep_count (w : World) (urls : List String) :
    ∀ st : DLState,
      (List.foldl (downloadStep w) st urls).numSkipped
        + (List.foldl (downloadStep w) st urls).numSuccess
        + (List.foldl (downloadStep w) st urls).failedDownloads.length
      = st.numSkipped + st.numSuccess + st.failedDownloads.length + urls.length := by
  induction urls with
  | nil =>
    intro st
    simp
  | cons u us ih =>
    intro st
    simp only [List.foldl_cons, List.length_cons]
    rw [ih (downloadStep w st u)]
    have := downloadStep_count w st u
    omega

/-- The loop body depends on the incoming counters only additively: running
it from any state equals running it from a pristine state over the same
directory and adding the deltas. -/
theorem downloadStep_shift (w : World) (st : DLState) (url : String) :
    downloadStep w st url =
      { dir := (downloadStep w (initState st.dir) url).dir,
        numSkipped := st.numSkipped + (downloadStep w (initState st.dir) url).numSkipped,
        numSuccess := st.numSuccess + (downloadStep w (initState st.dir) url).numSuccess,
        failedDownloads :=
          st.failedDownloads ++ (downloadStep w (initState st.dir) url).failedDownloads,
        netGets := st.netGets + (downloadStep w (initState st.dir) url).netGets } := by
  by_cases hc : isCached st.dir url
  · simp [downloadStep, initState, hc]
  · cases hn : w.net url with
    | none => simp [downloadStep, initState, hc, hn]
    | some r =>
      by_cases hok : respOk r
      · rcases hcd : cacheDependency w st.dir r with ⟨d1, oe⟩
        cases oe with
        | none => simp [downloadStep, initState, hc, hn, hok, hcd]
        | some e => simp [downloadStep, initState, hc, hn, hok, hcd]
      · simp [downloadStep, initState, hc, hn, hok]

/-- The whole loop depends on the incoming counters only additively. -/
theorem foldl_downloadStep_shift (w : World) (urls : List String) :
    ∀ st : DLState,
      List.foldl (downloadStep w) st urls =
        { dir := (downloadUrls w st.dir urls).dir,
          numSkipped := st.numSkipped + (downloadUrls w st.dir urls).numSkipped,
          numSuccess := st.numSuccess + (downloadUrls w st.dir urls).numSuccess,
          failedDownloads := st.failedDownloads ++ (downloadUrls w st.dir urls).failedDownloads,
          netGets := st.netGets + (downloadUrls w st.dir urls).netGets } := by
  induction urls with
  | nil =>
    intro st
    simp [downloadUrls, initState]
  | cons u us ih =>
    intro st
    simp only [List.foldl_cons]
    have h1 : downloadUrls w st.dir (u :: us)
        = List.foldl (downloadStep w) (downloadStep w (initState st.dir) u) us := by
      simp [downloadUrls]
    rw [ih (downloadStep w st u), downloadStep_shift w st u, h1,
        ih (downloadStep w (initState st.dir) u)]
    simp [Nat.add_assoc, List.append_assoc]

/-- When `_cache_dependency` raises, the only file it may have created or
truncated is the payload file named by `_get_response_filename`; the marker
touch was never reached. -/
theorem cacheDependency_err_dir (w : World) (d : CacheDir) (r : Response)
    (d1 : CacheDir) (e : PyErr) (h : cacheDependency w d r = (d1, some e)) :
    ∀ n, n ∈ fileNames d1 → n ∈ fileNames d ∨ n = getResponseFilename r := by
  simp only [cacheDependency] at h
  split at h
  · intro n hn
    injection h with h1 h2
    subst h1
    exact Or.inl hn
  · split at h
    · intro n hn
      injection h with h1 h2
      subst h1
      exact mem_fileNames_writeFile _ _ _ _ hn
    · split at h
      · intro n hn
        injection h with h1 h2
        subst h1
        exact mem_fileNames_writeFile _ _ _ _ hn
      · simp at h

/-- A loop iteration that appends the URL to `failed_downloads` left both
counters alone and issued exactly one network request. -/
theorem downloadStep_failed_counters (w : World) (st : DLState) (url : String)
    (hfail : (downloadStep w st url).failedDownloads = st.failedDownloads ++ [url]) :
    (downloadStep w st url).numSkipped = st.numSkipped
    ∧ (downloadStep w st url).numSuccess = st.numSuccess
    ∧ (downloadStep w st url).netGets = st.netGets + 1 := by
  by_cases hc : isCached st.dir url
  · simp [downloadStep, hc] at hfail
  · cases hn : w.net url with
    | none => simp [downloadStep, hc, hn]
    | some r =>
      by_cases hok : respOk r
      · rcases hcd : cacheDependency w st.dir r with ⟨d1, oe⟩
        cases oe with
        | none => simp [downloadStep, hc, hn, hok, hcd] at hfail
        | some e => simp [downloadStep, hc, hn, hok, hcd]
      · simp [downloadStep, hc, hn, hok]

/-- A loop iteration that appends the URL to `failed_downloads` can have
added at most the payload file to the directory, never a marker touch. -/
theorem downloadStep_failed_dir (w : World) (st : DLState) (url : String)
    (hfail : (downloadStep w st url).failedDownloads = st.failedDownloads ++ [url]) :
    ∀ n, n ∈ fileNames (downloadStep w st url).dir →
      n ∈ fileNames st.dir ∨ ∃ r, w.net url = some r ∧ n = getResponseFilename r := by
  by_cases hc : isCached st.dir url
  · simp [downloadStep, hc] at hfail
  · cases hn : w.net url with
    | none =>
      intro n hn1
      simp [downloadStep, hc, hn] at hn1
      exact Or.inl hn1
    | some r =>
      by_cases hok : respOk r
      · rcases hcd : cacheDependency w st.dir r with ⟨d1, oe⟩
        cases oe with
        | none => simp [downloadStep, hc, hn, hok, hcd] at hfail
        | some e =>
          intro n hn1
          simp only [downloadStep, hc, hn, hok, hcd] at hn1
          simp at hn1
          rcases cacheDependency_err_dir w st.dir r d1 e hcd n hn1 with h1 | h1
          · exact Or.inl h1
          · exact Or.inr ⟨r, rfl, h1⟩
      · intro n hn1
        simp [downloadStep, hc, hn, hok] at hn1
        exact Or.inl hn1

/-! ## Concrete fixtures used by witnesses and counterexamples -/

/-- A world in which no network answer exists and no filesystem operation
fails; sufficient for exercising `_cache_dependency` directly. -/
def okWorld : World :=
  { net := fun _ => none, openFails := fun _ => false, writeFails := fun _ => false }

/-- A plain success response without redirects. -/
def resp1 : Response :=
  { statusCode := 200, url := "https://example.com/pkg.tar.gz", history := [],
    headers := [], content := [1] }

/-- A success response that was redirected: the history records the
originally requested URL, `url` holds the final one. -/
def respRedirect : Response :=
  { statusCode := 200, url := "https://final.example/real.tar.gz",
    history := [{ url := "https://orig.example/archive.tar.gz" }],
    headers := [], content := [0] }

/-- The spec's extraction scenario: one `tar_archive` line and one mirror
line. -/
def scenarioText : String :=
  "tar_archive(url = \"https://example.com/pkg.tar.gz\")\n\"https://mirror.bazel.build/pkg.tar.gz\""

/-! ## Claim theorems -/

/-- C1. Round-trip caching: after a successful `_cache_dependency` (payload
written and marker touched), `_is_cached` answers true for the requested URL
string; the marker name is the deterministic `@<hexhash>.txt` image of the
URL, and `_is_cached` answers true exactly when a file with that exact name
exists directly inside the cache directory. -/
theorem roundtrip_caching (w : World) (d : CacheDir) (r : Response)
    (h : (cacheDependency w d r).2 = none) :
    isCached (cacheDependency w d r).1 (requestedUrl r) = true
    ∧ ckptFilename (requestedUrl r) = "@" ++ md5hex (requestedUrl r) ++ ".txt"
    ∧ ∀ u : String, ∀ d0 : CacheDir,
        (isCached d0 u = true ↔ ckptFilename u ∈ fileNames d0) := by
  refine ⟨?_, rfl, fun u d0 => isCached_iff_mem d0 u⟩
  exact (isCached_iff_mem _ _).mpr (cacheDependency_marker_mem w d r h)

/-- Witness for C1 at a concrete response with no redirect. -/
theorem roundtrip_caching_witness :
    (cacheDependency okWorld [] resp1).2 = none
    ∧ isCached (cacheDependency okWorld [] resp1).1 (requestedUrl resp1) = true :=
  ⟨by decide, (roundtrip_caching okWorld [] resp1 (by decide)).1⟩

/-- C5. Redirect-keyed caching: a successful download records the marker
under the originally requested URL — the first entry of the redirect
history, or the response URL when there was no redirect — and a subsequent
`_is_cached` for that original URL string answers true. -/
theorem redirect_keyed_caching (w : World) (d : CacheDir) (r : Response)
    (h : (cacheDependency w d r).2 = none) :
    requestedUrl r = (match r.history with
      | [] => r.url
      | hop :: _ => hop.url)
    ∧ ckptFilename (requestedUrl r) ∈ fileNames (cacheDependency w d r).1
    ∧ isCached (cacheDependency w d r).1 (requestedUrl r) = true := by
  refine ⟨rfl, cacheDependency_marker_mem w d r h, ?_⟩
  exact (isCached_iff_mem _ _).mpr (cacheDependency_marker_mem w d r h)

/-- Witness for C5 at a concrete redirected response: the marker is keyed by
the original URL, and at this input the final URL is not recognized as
cached. -/
theorem redirect_keyed_caching_witness :
    (cacheDependency okWorld [] respRedirect).2 = none
    ∧ requestedUrl respRedirect = "https://orig.example/archive.tar.gz"
    ∧ isCached (cacheDependency okWorld [] respRedirect).1
        "https://orig.example/archive.tar.gz" = true
    ∧ isCached (cacheDependency okWorld [] respRedirect).1
        "https://final.example/real.tar.gz" = false := by
  refine ⟨by decide, by decide, ?_, by decide⟩
  exact (redirect_keyed_caching okWorld [] respRedirect (by decide)).2.2

/-- C2. Mirror filtering: no element of the extractor's output contains a
known mirror-domain substring — every capture containing one is removed. -/
theorem mirror_filtering (contents : String) (u : String)
    (h : u ∈ extractDependencyUrls contents true) : isMirrorUrl u = false := by
  simp only [extractDependencyUrls, if_pos] at h
  have := (List.mem_filter.mp h).2
  simpa using this

/-- Witness for C2 on the spec's scenario text. -/
theorem mirror_filtering_witness :
    "https://example.com/pkg.tar.gz" ∈ extractDependencyUrls scenarioText true
    ∧ isMirrorUrl "https://example.com/pkg.tar.gz" = false :=
  ⟨by decide, mirror_filtering scenarioText "https://example.com/pkg.tar.gz" (by decide)⟩

/-- C3. Constructing a `TensorflowRepo` raises before any discovery or
download work: `get_tf_version` passes the generator from `Path.glob` to
`open`, which raises `TypeError`, so `__init__` propagates the error and
`main` never reaches `download_build_dependencies`, for every source tree,
world, and cache directory. -/
theorem init_always_raises (tree : SourceTree) (w : World) (d : CacheDir) :
    tensorflowRepoInit tree = Except.error PyErr.typeError
    ∧ mainRun tree w d = Except.error PyErr.typeError :=
  ⟨rfl, rfl⟩

/-- C10. Counter partition invariant: every URL of the batch contributes to
exactly one of skipped, succeeded, or failed, so the three final tallies sum
to the length of the URL list. -/
theorem counter_partition (w : World) (d : CacheDir) (urls : List String) :
    (downloadUrls w d urls).numSkipped + (downloadUrls w d urls).numSuccess
      + (downloadUrls w d urls).failedDownloads.length = urls.length := by
  have h := foldl_downloadStep_count w urls (initState d)
  simpa [downloadUrls, initState] using h

/-- A response carrying a quoted filename in its `Content-Disposition`
header; the final URL's last path segment differs from it. -/
def resp9 : Response :=
  { statusCode := 200, url := "https://final.example/path/fallback.tar.gz",
    history := [],
    headers := [("Content-Disposition", "attachment; filename=\"pkg.tar.gz\"")],
    content := [] }

/-- C9. The destination filename is NOT trimmed: the `strip` chain on
line 99 discards its result (strings are immutable and the value is never
assigned), so `_get_response_filename` returns the raw `filename=` capture
with its surrounding quotes, while the stripped value the code evidently
intended differs. -/
theorem response_filename_untrimmed :
    getResponseFilename resp9 = "\"pkg.tar.gz\""
    ∧ getResponseFilename resp9 ≠ "pkg.tar.gz"
    ∧ pyStrip (fun c => c = '"')
        (pyStrip (fun c => c = ',') (pyStrip Char.isWhitespace (getResponseFilename resp9)))
      = "pkg.tar.gz" := by
  refine ⟨by decide, by decide, by decide⟩

/-- A single line holding two separate double-quoted URLs. -/
def twoUrlLine : String := "\"https://a.com\", \"https://b.com\""

/-- Counterexample to C4 as stated: on a line with two quoted URLs the
greedy `.*` of `DEPENDENCY_URL_PATTERN` runs to the last quote of the line,
so the extractor returns one merged capture instead of the two double-quoted
substrings the claim promises. -/
theorem extractor_merges_adjacent_quotes :
    extractDependencyUrls twoUrlLine true ≠ ["https://a.com", "https://b.com"]
    ∧ extractDependencyUrls twoUrlLine true = ["https://a.com\", \"https://b.com"]
    ∧ specExtractQuotedHttps twoUrlLine = ["https://a.com", "https://b.com"] := by
  refine ⟨by decide, by decide, by decide⟩

/-- Consuming the optional comma never lengthens the list. -/
theorem dropComma_length (l : List Char) : (dropComma l).length ≤ l.length := by
  unfold dropComma
  split
  · simp
  · exact Nat.le_refl _

/-- A quote-free line has no last-quote split. -/
theorem splitLastQuote_none_of_no_quote (l : List Char) (h : '"' ∉ l) :
    splitLastQuote l = none := by
  induction l with
  | nil => rfl
  | cons c rest ih =>
    have hc : ¬(c = '"') := fun hc => h (hc ▸ List.mem_cons_self c rest)
    have hr : '"' ∉ rest := fun hm => h (List.mem_cons_of_mem c hm)
    simp only [splitLastQuote, ih hr]
    simp [hc]

/-- A line without a last-quote split is quote-free. -/
theorem no_quote_of_splitLastQuote_none (l : List Char) (h : splitLastQuote l = none) :
    '"' ∉ l := by
  induction l with
  | nil => simp
  | cons c rest ih =>
    simp only [splitLastQuote] at h
    cases hr : splitLastQuote rest with
    | some p => rw [hr] at h; rcases p with ⟨b, a⟩; simp at h
    | none =>
      rw [hr] at h
      simp only [] at h
      intro hm
      rcases List.mem_cons.mp hm with h1 | h1
      · rw [h1] at h; simp at h
      · exact ih hr h1

/-- The last-quote split of `mid ++ quote :: post` with quote-free `post`. -/
theorem splitLastQuote_last (mid post : List Char) (hpost : '"' ∉ post) :
    splitLastQuote (mid ++ '"' :: post) = some (mid, post) := by
  induction mid with
  | nil =>
    simp only [List.nil_append, splitLastQuote, splitLastQuote_none_of_no_quote post hpost]
    simp
  | cons c m ih =>
    simp only [List.cons_append, splitLastQuote, List.append_eq, ih]

/-- A successful last-quote split reassembles the line. -/
theorem splitLastQuote_shape (l b a : List Char) (h : splitLastQuote l = some (b, a)) :
    l = b ++ '"' :: a := by
  induction l generalizing b a with
  | nil => simp [splitLastQuote] at h
  | cons c rest ih =>
    simp only [splitLastQuote] at h
    cases hr : splitLastQuote rest with
    | some p =>
      rcases p with ⟨b1, a1⟩
      rw [hr] at h
      simp only [Option.some.injEq, Prod.mk.injEq] at h
      rcases h with ⟨hb, ha⟩
      rw [← hb, ← ha]
      simpa using congrArg (fun t => c :: t) (ih b1 a1 hr)
    | none =>
      rw [hr] at h
      by_cases hc : c = '"'
      · simp only [hc, if_pos] at h
        simp only [Option.some.injEq, Prod.mk.injEq] at h
        rcases h with ⟨hb, ha⟩
        rw [← hb, ← ha, hc]
        simp
      · simp [hc] at h

/-- Text without a double quote yields no matches. -/
theorem findall_no_quote (fuel : Nat) (cs : List Char) (h : '"' ∉ cs) :
    findallDepUrls fuel cs = [] := by
  induction fuel generalizing cs with
  | zero => rfl
  | succ f ih =>
    cases cs with
    | nil => rfl
    | cons c rest =>
      have hc : ¬(c = '"') := fun hc => h (hc ▸ List.mem_cons_self c rest)
      have hr : '"' ∉ rest := fun hm => h (List.mem_cons_of_mem c hm)
      simp only [findallDepUrls]
      rw [if_neg (by simp [hc])]
      exact ih rest hr

/-- The scanner is independent of the fuel once the fuel covers the text. -/
theorem findall_fuel (f1 : Nat) : ∀ (cs : List Char) (f2 : Nat),
    cs.length ≤ f1 → cs.length ≤ f2 →
    findallDepUrls f1 cs = findallDepUrls f2 cs := by
  induction f1 with
  | zero =>
    intro cs f2 h1 _
    have hcs : cs = [] := List.eq_nil_of_length_eq_zero (Nat.le_zero.mp h1)
    subst hcs
    cases f2 <;> rfl
  | succ f ih =>
    intro cs f2 h1 h2
    cases cs with
    | nil => cases f2 <;> rfl
    | cons c rest =>
      cases f2 with
      | zero => simp at h2
      | succ f2p =>
        have hrest1 : rest.length ≤ f := by
          simp at h1
          omega
        have hrest2 : rest.length ≤ f2p := by
          simp at h2
          omega
        simp only [findallDepUrls]
        by_cases hc : (decide (c = '"') && ("https://".data).isPrefixOf rest) = true
        · rw [if_pos hc, if_pos hc]
          cases hq : splitLastQuote ((rest.drop 8).takeWhile (fun ch => ch ≠ '\n')) with
          | some p =>
            rcases p with ⟨before, after⟩
            simp only [hq]
            congr 1
            have hbound : (dropComma ((rest.drop 8).drop (before.length + 1))).length
                ≤ rest.length := by
              have h1b := dropComma_length ((rest.drop 8).drop (before.length + 1))
              simp [List.length_drop] at h1b ⊢
              omega
            exact ih _ f2p (Nat.le_trans hbound hrest1) (Nat.le_trans hbound hrest2)
          | none =>
            simp only [hq]
            exact ih rest f2p hrest1 hrest2
        · rw [if_neg hc, if_neg hc]
          exact ih rest f2p hrest1 hrest2

/-- `takeWhile` stops at an appended failing element. -/
theorem takeWhile_append_stop (p : Char → Bool) (xs : List Char) (y : Char)
    (ys : List Char) (hy : p y = false) :
    (xs ++ y :: ys).takeWhile p = xs.takeWhile p := by
  induction xs with
  | nil => simp [List.takeWhile, hy]
  | cons x t ih =>
    simp only [List.cons_append, List.takeWhile]
    cases p x <;> simp [ih]

/-- A prefix test cannot succeed across an element absent from the pattern. -/
theorem isPrefixOf_append_stop (pat : List Char) : ∀ (a : List Char) (y : Char)
    (b : List Char), y ∉ pat →
    pat.isPrefixOf (a ++ y :: b) = pat.isPrefixOf a := by
  induction pat with
  | nil => intro a y b _; simp [List.isPrefixOf]
  | cons p ps ih =>
    intro a y b hy
    cases a with
    | nil =>
      have hp : ¬(p == y) = true := by
        simp only [beq_iff_eq]
        intro hpe
        exact hy (hpe ▸ List.mem_cons_self p ps)
      simp [List.isPrefixOf, Bool.eq_false_iff.mpr hp]
    | cons x xs =>
      simp only [List.cons_append, List.isPrefixOf, List.append_eq]
      rw [ih xs y b (fun hm => hy (List.mem_cons_of_mem p hm))]

/-- `dropComma` keeps a list whose head is not a comma. -/
theorem dropComma_cons_ne (y : Char) (t : List Char) (hy : y ≠ ',') :
    dropComma (y :: t) = y :: t := by
  unfold dropComma
  split
  · next t2 heq =>
    injection heq with h1 h2
    exact absurd h1 hy
  · rfl

/-- `dropComma` only inspects the head, so it commutes with appending after a non-comma element. -/
theorem dropComma_append (x : List Char) (y : Char) (b : List Char) (hy : y ≠ ',') :
    dropComma (x ++ y :: b) = dropComma x ++ y :: b := by
  cases x with
  | nil => simpa using dropComma_cons_ne y b hy
  | cons z t =>
    by_cases hz : z = ','
    · subst hz
      simp [dropComma]
    · rw [List.cons_append, dropComma_cons_ne z (t ++ y :: b) hz,
          dropComma_cons_ne z t hz, List.cons_append]

/-- `dropComma` returns a sublist. -/
theorem mem_dropComma (x : List Char) (c : Char) (h : c ∈ dropComma x) : c ∈ x := by
  revert h
  unfold dropComma
  split
  · next t2 heq =>
    intro h
    exact List.mem_cons_of_mem ',' h
  · exact fun h => h

/-- Matches never span a newline: the scanner distributes over line breaks. -/
theorem findall_split (fuel : Nat) : ∀ (a b : List Char),
    a.length + 1 + b.length ≤ fuel →
    findallDepUrls fuel (a ++ '\n' :: b)
      = findallDepUrls fuel a ++ findallDepUrls fuel b := by
  induction fuel with
  | zero =>
    intro a b h
    exact absurd h (by omega)
  | succ f ih =>
    intro a b h
    cases a with
    | nil =>
      have hb : b.length ≤ f := by
        simp at h
        omega
      simp only [List.nil_append, findallDepUrls]
      rw [if_neg (by simp)]
      rw [findall_fuel f b (f + 1) hb (by omega)]
    | cons c a' =>
      have hlen : a'.length + 1 + b.length ≤ f := by
        simp at h
        omega
      simp only [List.cons_append, findallDepUrls, List.append_eq]
      rw [isPrefixOf_append_stop _ a' '\n' b (by decide)]
      by_cases hc : (decide (c = '"') && ("https://".data).isPrefixOf a') = true
      · rw [if_pos hc, if_pos hc]
        have hparts : c = '"' ∧ "https://".data <+: a' := by simpa using hc
        have h8 : 8 ≤ a'.length := by
          simpa using List.IsPrefix.length_le hparts.2
        have hdrop : (a' ++ '\n' :: b).drop 8 = a'.drop 8 ++ '\n' :: b :=
          List.drop_append_of_le_length h8
        rw [hdrop]
        have hline : (a'.drop 8 ++ '\n' :: b).takeWhile (fun ch => ch ≠ '\n')
            = (a'.drop 8).takeWhile (fun ch => ch ≠ '\n') :=
          takeWhile_append_stop _ _ '\n' b (by simp)
        rw [hline]
        cases hq : splitLastQuote ((a'.drop 8).takeWhile (fun ch => ch ≠ '\n')) with
        | none =>
          simp only [hq]
          rw [ih a' b hlen]
          congr 1
          exact findall_fuel f b (f + 1) (by omega) (by omega)
        | some p =>
          rcases p with ⟨before, after⟩
          simp only [hq]
          have hshape := splitLastQuote_shape _ _ _ hq
          have hpref : ((a'.drop 8).takeWhile (fun ch => ch ≠ '\n')).length
              ≤ (a'.drop 8).length :=
            List.IsPrefix.length_le (List.takeWhile_prefix _)
          have hblen : before.length + 1 ≤ (a'.drop 8).length := by
            have h2 : (before ++ '"' :: after).length ≤ (a'.drop 8).length :=
              hshape ▸ hpref
            simp [List.length_drop] at h2 ⊢
            omega
          have hdrop2 : (a'.drop 8 ++ '\n' :: b).drop (before.length + 1)
              = (a'.drop 8).drop (before.length + 1) ++ '\n' :: b :=
            List.drop_append_of_le_length hblen
          rw [hdrop2, dropComma_append _ '\n' b (by decide)]
          have hbnd : (dropComma ((a'.drop 8).drop (before.length + 1))).length + 1
              + b.length ≤ f := by
            have h1b := dropComma_length ((a'.drop 8).drop (before.length + 1))
            have h2b : ((a'.drop 8).drop (before.length + 1)).length ≤ a'.length := by
              simp [List.length_drop]
            omega
          rw [ih _ b hbnd]
          simp only [List.cons_append, List.append_assoc]
          congr 2
          exact findall_fuel f b (f + 1) (by omega) (by omega)
      · rw [if_neg hc, if_neg hc]
        rw [ih a' b hlen]
        congr 1
        exact findall_fuel f b (f + 1) (by omega) (by omega)

/-- A line consisting of one double-quoted `https://` string surrounded by quote-free text yields exactly that quoted URL. -/
theorem findall_single (fuel : Nat) : ∀ (pre mid post : List Char),
    '"' ∉ pre → '"' ∉ mid → '"' ∉ post → '\n' ∉ mid → '\n' ∉ post →
    (pre ++ '"' :: ("https://".data ++ (mid ++ '"' :: post))).length ≤ fuel →
    findallDepUrls fuel (pre ++ '"' :: ("https://".data ++ (mid ++ '"' :: post)))
      = ["https://".data ++ mid] := by
  induction fuel with
  | zero =>
    intro pre mid post _ _ _ _ _ hlen
    exact absurd hlen (by simp)
  | succ f ih =>
    intro pre mid post hq1 hq2 hq3 hn2 hn3 hlen
    cases pre with
    | nil =>
      simp only [List.nil_append, findallDepUrls, List.append_eq]
      rw [if_pos (by simp [List.isPrefixOf_iff_prefix, List.prefix_append])]
      have hdrop : ("https://".data ++ (mid ++ '"' :: post)).drop 8 = mid ++ '"' :: post :=
        List.drop_left ("https://".data) (mid ++ '"' :: post)
      rw [hdrop]
      have hline : (mid ++ '"' :: post).takeWhile (fun ch => ch ≠ '\n')
          = mid ++ '"' :: post := by
        rw [List.takeWhile_eq_self_iff]
        intro x hx
        rcases List.mem_append.mp hx with h1 | h1
        · simp
          intro he
          exact hn2 (he ▸ h1)
        · rcases List.mem_cons.mp h1 with h2 | h2
          · simp [h2]
          · simp
            intro he
            exact hn3 (he ▸ h2)
      rw [hline, splitLastQuote_last mid post hq3]
      simp only []
      have hdrop2 : (mid ++ '"' :: post).drop (mid.length + 1) = post := by
        have h1 : mid ++ '"' :: post = (mid ++ ['"']) ++ post := by simp
        have h2 : (mid ++ ['"']).length = mid.length + 1 := by simp
        rw [h1, ← h2, List.drop_left]
      rw [hdrop2]
      have hnq : '"' ∉ dropComma post := fun hm => hq3 (mem_dropComma post '"' hm)
      rw [findall_no_quote f (dropComma post) hnq]
    | cons p pre' =>
      have hp : ¬(p = '"') := fun hpe => hq1 (hpe ▸ List.mem_cons_self p pre')
      have hq1' : '"' ∉ pre' := fun hm => hq1 (List.mem_cons_of_mem p hm)
      simp only [List.cons_append, findallDepUrls, List.append_eq]
      rw [if_neg (by simp [hp])]
      exact ih pre' mid post hq1' hq2 hq3 hn2 hn3 (by simp at hlen ⊢; omega)

/-- C4 (amended). URL extraction: scanner matches never span a newline, so
extraction distributes over line breaks; a line holding exactly one
double-quoted `https://` string (quote-free before, inside, and after it)
yields exactly that quoted substring; and on the spec's scenario input the
extractor first finds both quoted URLs in order and then drops the mirror
entry, yielding exactly the example URL. On a line holding two quoted URLs
the greedy pattern instead produces one merged capture (see the
counterexample), which is the one correction to the claim. -/
theorem extractor_scenario :
    ((∀ a b : String,
        reFindallDepUrls (a ++ "\n" ++ b) = reFindallDepUrls a ++ reFindallDepUrls b)
    ∧ (∀ pre mid post : String,
        '"' ∉ pre.data → '"' ∉ mid.data → '"' ∉ post.data →
        '\n' ∉ mid.data → '\n' ∉ post.data →
        reFindallDepUrls (pre ++ "\"https://" ++ mid ++ "\"" ++ post)
          = ["https://" ++ mid]))
    ∧ reFindallDepUrls scenarioText
        = ["https://example.com/pkg.tar.gz", "https://mirror.bazel.build/pkg.tar.gz"]
    ∧ extractDependencyUrls scenarioText true = ["https://example.com/pkg.tar.gz"] := by
  refine ⟨?_, by decide, by decide⟩
  constructor
  · intro a b
    unfold reFindallDepUrls
    have hn : ("\n" : String).data = ['\n'] := by decide
    have hdata : (a ++ "\n" ++ b).data = a.data ++ '\n' :: b.data := by
      rw [String.data_append, String.data_append, hn]
      simp
    rw [hdata]
    rw [findall_split (a.data ++ '\n' :: b.data).length a.data b.data (by simp; omega)]
    rw [List.map_append]
    congr 1
    · rw [findall_fuel (a.data ++ '\n' :: b.data).length a.data a.data.length
        (by simp) (Nat.le_refl _)]
    · rw [findall_fuel (a.data ++ '\n' :: b.data).length b.data b.data.length
        (by simp; omega) (Nat.le_refl _)]
  · intro pre mid post h1 h2 h3 h4 h5
    unfold reFindallDepUrls
    have hdata : (pre ++ "\"https://" ++ mid ++ "\"" ++ post).data
        = pre.data ++ '"' :: ("https://".data ++ (mid.data ++ '"' :: post.data)) := by
      rw [String.data_append, String.data_append, String.data_append, String.data_append]
      simp
    rw [hdata]
    rw [findall_single _ pre.data mid.data post.data h1 h2 h3 h4 h5 (Nat.le_refl _)]
    have hmk : String.mk ("https://".data ++ mid.data) = "https://" ++ mid := by
      rw [← String.data_append]
    simp only [List.map_cons, List.map_nil]
    rw [hmk]


/-- Witness for C4 at the scenario line: the single-quoted-URL case applied
to the concrete `tar_archive` line. -/
theorem extractor_scenario_witness :
    ('"' ∉ ("tar_archive(url = " : String).data)
    ∧ ('"' ∉ ("example.com/pkg.tar.gz" : String).data)
    ∧ ('"' ∉ (")" : String).data)
    ∧ ('\n' ∉ ("example.com/pkg.tar.gz" : String).data)
    ∧ ('\n' ∉ (")" : String).data)
    ∧ reFindallDepUrls
        ("tar_archive(url = " ++ "\"https://" ++ "example.com/pkg.tar.gz" ++ "\"" ++ ")")
        = ["https://" ++ "example.com/pkg.tar.gz"] := by
  refine ⟨by decide, by decide, by decide, by decide, by decide, ?_⟩
  exact extractor_scenario.1.2 "tar_archive(url = " "example.com/pkg.tar.gz" ")"
    (by decide) (by decide) (by decide) (by decide) (by decide)

/-- A URL fetched twice in the counterexample run, answered by a plain
success response. -/
def u8 : String := "https://example.com/pkg8.tar.gz"

/-- The world for the duplicate-URL run: `u8` downloads cleanly. -/
def w8 : World :=
  { net := fun s =>
      if s = u8 then
        some { statusCode := 200, url := u8, history := [], headers := [], content := [7] }
      else none,
    openFails := fun _ => false,
    writeFails := fun _ => false }

/-- Counterexample to C8 as stated: the same URL listed twice in one run
with an initially empty cache is downloaded only ONCE — the first success
touches the marker, the per-iteration `_is_cached` re-reads the directory,
and the second occurrence is skipped, so the network is hit once, not
twice. -/
theorem second_occurrence_skipped_not_downloaded :
    (downloadUrls w8 [] [u8, u8]).netGets = 1
    ∧ (downloadUrls w8 [] [u8, u8]).numSuccess = 1
    ∧ (downloadUrls w8 [] [u8, u8]).numSkipped = 1
    ∧ ¬(downloadUrls w8 [] [u8, u8]).netGets = 2 := by
  refine ⟨by decide, by decide, by decide, by decide⟩

/-- C8 (amended). For a URL with no pre-existing marker appearing twice in
one run: when the first attempt fails (here: the GET raises), no marker is
written and the URL is fetched twice; when the first attempt succeeds and
the marker lands under the same URL string, the ledger check of the second
iteration re-reads the directory, finds the fresh marker, and skips the
second occurrence — one network call, one success, one skip. -/
theorem duplicate_url_within_run (w : World) (d : CacheDir) (u : String)
    (h0 : isCached d u = false) :
    (w.net u = none →
        (downloadUrls w d [u, u]).netGets = 2
        ∧ (downloadUrls w d [u, u]).failedDownloads = [u, u])
    ∧ (∀ r, w.net u = some r → respOk r = true →
        (cacheDependency w d r).2 = none → requestedUrl r = u →
        (downloadUrls w d [u, u]).netGets = 1
        ∧ (downloadUrls w d [u, u]).numSkipped = 1
        ∧ (downloadUrls w d [u, u]).numSuccess = 1) := by
  constructor
  · intro hn
    constructor
    · simp [downloadUrls, downloadStep, initState, h0, hn]
    · simp [downloadUrls, downloadStep, initState, h0, hn]
  · intro r hr hok hcd hru
    have hstep1 : downloadStep w (initState d) u =
        { dir := (cacheDependency w d r).1, numSkipped := 0, numSuccess := 1,
          failedDownloads := [], netGets := 1 } := by
      rcases hcd2 : cacheDependency w d r with ⟨d1, oe⟩
      rw [hcd2] at hcd
      simp only at hcd
      subst hcd
      simp [downloadStep, initState, h0, hr, hok, hcd2]
    have hc2 : isCached (cacheDependency w d r).1 u = true := by
      apply (isCached_iff_mem _ _).mpr
      rw [← hru]
      exact cacheDependency_marker_mem w d r hcd
    have hfinal : downloadUrls w d [u, u]
        = downloadStep w (downloadStep w (initState d) u) u := by
      simp [downloadUrls]
    rw [hfinal, hstep1]
    refine ⟨?_, ?_, ?_⟩ <;> simp [downloadStep, hc2]

/-- Witness for C8 at the concrete duplicate-URL run. -/
theorem duplicate_url_within_run_witness :
    isCached ([] : CacheDir) u8 = false
    ∧ (downloadUrls w8 [] [u8, u8]).netGets = 1
    ∧ (downloadUrls w8 [] [u8, u8]).numSkipped = 1 := by
  have h := duplicate_url_within_run w8 [] u8 (by decide)
  have h2 := h.2 { statusCode := 200, url := u8, history := [], headers := [], content := [7] }
    (by decide) (by decide) (by decide) (by decide)
  exact ⟨by decide, h2.1, h2.2.1⟩

/-- The URL of the C7 counterexample. -/
def u7 : String := "https://u7.example/data"

/-- A response whose server-chosen `Content-Disposition` filename is
exactly the marker name of the requested URL itself. -/
def resp7 : Response :=
  { statusCode := 200, url := u7, history := [],
    headers := [("Content-Disposition", "filename=@" ++ md5hex u7 ++ ".txt")],
    content := [9] }

/-- A world where fetching `u7` succeeds but writing its payload file
raises after `open` created the file. -/
def w7 : World :=
  { net := fun s => if s = u7 then some resp7 else none,
    openFails := fun _ => false,
    writeFails := fun n => n = "@" ++ md5hex u7 ++ ".txt" }

/-- Counterexample to C7 as stated: a download that fails during the
payload write can still leave a file bearing the URL's own marker name —
`open` creates the payload file under the server-chosen name
`@<md5(url)>.txt` before `write` raises — so afterwards `_is_cached`
wrongly reports this never-downloaded URL as cached. -/
theorem failed_download_leaves_marker_named_file :
    (downloadStep w7 (initState []) u7).failedDownloads = [u7]
    ∧ (downloadStep w7 (initState []) u7).numSuccess = 0
    ∧ isCached (downloadStep w7 (initState []) u7).dir u7 = true := by
  refine ⟨by decide, by decide, by decide⟩

/-- C7 (amended). A failed iteration never reaches the marker touch: every
file present afterwards was either already there or is the single payload
file named by `_get_response_filename` (created by `open` before the write
raised; a non-ok status or a transport error writes nothing at all).
Consequently the URL stays un-cached — unless the server-chosen payload
filename itself equals the URL's marker name. -/
theorem marker_atomicity (w : World) (st : DLState) (u : String)
    (hfail : (downloadStep w st u).failedDownloads = st.failedDownloads ++ [u]) :
    (∀ n, n ∈ fileNames (downloadStep w st u).dir →
        n ∈ fileNames st.dir ∨ ∃ r, w.net u = some r ∧ n = getResponseFilename r)
    ∧ (isCached st.dir u = false →
        (∀ r, w.net u = some r → getResponseFilename r ≠ ckptFilename u) →
        isCached (downloadStep w st u).dir u = false) := by
  refine ⟨downloadStep_failed_dir w st u hfail, ?_⟩
  intro h0 hne
  by_contra hcon
  have htrue : isCached (downloadStep w st u).dir u = true := by
    revert hcon
    cases isCached (downloadStep w st u).dir u <;> simp
  have hmem := (isCached_iff_mem _ _).mp htrue
  rcases downloadStep_failed_dir w st u hfail _ hmem with h1 | ⟨r, hr, hn⟩
  · rw [(isCached_iff_mem st.dir u).mpr h1] at h0
    exact Bool.true_eq_false.mp h0
  · exact hne r hr hn.symm

/-- The HTTP 500 answer used by the C7 witness. -/
def resp500 : Response :=
  { statusCode := 500, url := "https://fail.example/u", history := [],
    headers := [], content := [] }

/-- A world answering one URL with HTTP 500 and another with a clean
success; no filesystem operation fails. -/
def w500 : World :=
  { net := fun s =>
      if s = "https://fail.example/u" then some resp500
      else if s = "https://ok.example/pkg3.tar.gz" then
        some { statusCode := 200, url := "https://ok.example/pkg3.tar.gz",
               history := [], headers := [], content := [5] }
      else none,
    openFails := fun _ => false,
    writeFails := fun _ => false }

/-- Witness for C7 at a concrete HTTP-500 failure: nothing is written and
the URL stays un-cached. -/
theorem marker_atomicity_witness :
    (downloadStep w500 (initState []) "https://fail.example/u").failedDownloads
      = [] ++ ["https://fail.example/u"]
    ∧ isCached ([] : CacheDir) "https://fail.example/u" = false
    ∧ isCached (downloadStep w500 (initState []) "https://fail.example/u").dir
        "https://fail.example/u" = false := by
  have h := marker_atomicity w500 (initState []) "https://fail.example/u" (by decide)
  refine ⟨by decide, by decide, h.2 (by decide) ?_⟩
  intro r hr
  have hr2 : r = resp500 := by
    have hr3 : some resp500 = some r := by simpa [w500] using hr
    simpa using hr3.symm
  subst hr2
  decide

/-- The failing URL of the C6 counterexample. -/
def u6 : String := "https://evil.example/u"

/-- The later URL of the C6 counterexample, whose outcome flips. -/
def v6 : String := "https://victim.example/pkg2.tar.gz"

/-- A response for `u6` whose server-chosen filename is the marker name of
`v6`. -/
def resp6 : Response :=
  { statusCode := 200, url := u6, history := [],
    headers := [("Content-Disposition", "filename=@" ++ md5hex v6 ++ ".txt")],
    content := [1, 2] }

/-- A clean success response for `v6`. -/
def resp6v : Response :=
  { statusCode := 200, url := v6, history := [], headers := [], content := [3] }

/-- The world of the C6 counterexample: fetching `u6` succeeds but writing
its payload file raises after `open` created the file; `v6` would download
cleanly. -/
def w6 : World :=
  { net := fun s => if s = u6 then some resp6 else if s = v6 then some resp6v else none,
    openFails := fun _ => false,
    writeFails := fun n => n = "@" ++ md5hex v6 ++ ".txt" }

/-- Counterexample to C6 as stated: a URL whose payload write fails can
leave behind a file named like a later URL's marker, so that later URL is
skipped instead of downloaded — its outcome is NOT unaffected by the
earlier failure: alone it succeeds, after the failure it is skipped. -/
theorem failed_write_affects_later_url :
    (downloadUrls w6 [] [u6, v6]).failedDownloads = [u6]
    ∧ (downloadUrls w6 [] [u6, v6]).numSkipped = 1
    ∧ (downloadUrls w6 [] [u6, v6]).numSuccess = 0
    ∧ (downloadUrls w6 [] [v6]).numSuccess = 1
    ∧ (downloadUrls w6 [] [v6]).numSkipped = 0 := by
  refine ⟨by decide, by decide, by decide, by decide, by decide⟩

/-- C6 (amended). A failing URL is appended to `failed_downloads` and the
loop continues over every remaining URL, always reaching the final summary;
whenever the failing iteration left the directory unchanged (a raised GET
or a non-success status writes nothing), the remaining URLs' outcomes — and
the final directory — are exactly those of the run without the failing URL,
which accounts for one extra network call and the one extra failure entry.
Only a failure that partially wrote a payload file can influence later
outcomes (see the counterexample). -/
theorem failure_isolation (w : World) (d : CacheDir) (pre post : List String) (u : String)
    (hfail : (downloadStep w (List.foldl (downloadStep w) (initState d) pre) u).failedDownloads
      = (List.foldl (downloadStep w) (initState d) pre).failedDownloads ++ [u]) :
    u ∈ (downloadUrls w d (pre ++ u :: post)).failedDownloads
    ∧ downloadUrls w d (pre ++ u :: post)
        = List.foldl (downloadStep w)
            (downloadStep w (List.foldl (downloadStep w) (initState d) pre) u) post
    ∧ ((downloadStep w (List.foldl (downloadStep w) (initState d) pre) u).dir
          = (List.foldl (downloadStep w) (initState d) pre).dir →
        (downloadUrls w d (pre ++ u :: post)).numSkipped
            = (downloadUrls w d (pre ++ post)).numSkipped
        ∧ (downloadUrls w d (pre ++ u :: post)).numSuccess
            = (downloadUrls w d (pre ++ post)).numSuccess
        ∧ (downloadUrls w d (pre ++ u :: post)).dir = (downloadUrls w d (pre ++ post)).dir
        ∧ (downloadUrls w d (pre ++ u :: post)).netGets
            = (downloadUrls w d (pre ++ post)).netGets + 1
        ∧ ∃ tailFailed,
            (downloadUrls w d (pre ++ u :: post)).failedDownloads
              = (List.foldl (downloadStep w) (initState d) pre).failedDownloads
                  ++ u :: tailFailed
            ∧ (downloadUrls w d (pre ++ post)).failedDownloads
              = (List.foldl (downloadStep w) (initState d) pre).failedDownloads
                  ++ tailFailed) := by
  have hful : downloadUrls w d (pre ++ u :: post)
      = List.foldl (downloadStep w)
          (downloadStep w (List.foldl (downloadStep w) (initState d) pre) u) post := by
    simp [downloadUrls, List.foldl_append]
  have hwo : downloadUrls w d (pre ++ post)
      = List.foldl (downloadStep w) (List.foldl (downloadStep w) (initState d) pre) post := by
    simp [downloadUrls, List.foldl_append]
  set stPre := List.foldl (downloadStep w) (initState d) pre with hstPre
  set stU := downloadStep w stPre u with hstU
  refine ⟨?_, hful, ?_⟩
  · rw [hful, foldl_downloadStep_shift w post stU]
    simp only []
    rw [hfail]
    simp
  · intro hdir
    obtain ⟨hsk, hsu, hng⟩ := downloadStep_failed_counters w stPre u hfail
    rw [hful, hwo, foldl_downloadStep_shift w post stU, foldl_downloadStep_shift w post stPre,
        hdir]
    refine ⟨?_, ?_, rfl, ?_, ⟨(downloadUrls w stPre.dir post).failedDownloads, ?_, rfl⟩⟩
    · simp only []
      rw [hsk]
    · simp only []
      rw [hsu]
    · simp only []
      rw [hng]
      omega
    · simp only []
      rw [hfail]
      simp

/-- Witness for C6: a concrete run where the first URL fails with HTTP 500
and the second URL's outcome matches its solo run. -/
theorem failure_isolation_witness :
    (downloadStep w500 (List.foldl (downloadStep w500) (initState []) [])
        "https://fail.example/u").failedDownloads
      = (List.foldl (downloadStep w500) (initState []) []).failedDownloads
          ++ ["https://fail.example/u"]
    ∧ "https://fail.example/u"
        ∈ (downloadUrls w500 []
            ([] ++ "https://fail.example/u" :: ["https://ok.example/pkg3.tar.gz"])).failedDownloads
    ∧ (downloadUrls w500 []
          ([] ++ "https://fail.example/u" :: ["https://ok.example/pkg3.tar.gz"])).numSuccess
        = (downloadUrls w500 [] ([] ++ ["https://ok.example/pkg3.tar.gz"])).numSuccess := by
  have h := failure_isolation w500 [] [] ["https://ok.example/pkg3.tar.gz"]
    "https://fail.example/u" (by decide)
  exact ⟨by decide, h.1, (h.2.2 (by decide)).2.1⟩
